import Mathlib

/-!
Verification of the metrics aggregation core of the cross-channel ads
dashboard (src/app.py, `main`, lines 174-294, plus the daily-summary
loader lines 52-66).

Numbers: currency amounts and derived ratios are modelled as `ℚ`;
counters as `ℕ`.  Pandas/NumPy float division by zero does not raise:
`0/0` is NaN, `x/0` is ±inf for `x ≠ 0`, so derived columns are modelled
by the type `FVal` (a finite number, NaN, or ±infinity).  `pandas.round`
(NumPy) rounds half to even; `rhe` models that exactly on `ℚ`.
-/

namespace AdsDashboard

/-- One row of the `unified_ads` table (the Unified Record Set, §3 of the
spec): per-(date, platform, campaign, ad-group) daily counters. -/
structure URec where
  date : ℕ
  platform : String
  campaign_id : String
  campaign_name : String
  ad_group_id : String
  ad_group_name : String
  impressions : ℕ
  clicks : ℕ
  spend : ℚ
  conversions : ℕ
  deriving DecidableEq

/-- A pandas float cell: a finite rational, NaN, or ±infinity. -/
inductive FVal where
  | num (q : ℚ)
  | nan
  | inf
  | ninf
  deriving DecidableEq

/-- Models `pd.notna`: false exactly on NaN (infinities count as "not NA"). -/
def notna : FVal → Bool
  | .nan => false
  | _ => true

/-- Pandas column division `a / b`: NaN for `0/0`, ±inf for `x/0`. -/
def fdiv (a b : ℚ) : FVal :=
  if b = 0 then (if a = 0 then .nan else if 0 < a then .inf else .ninf)
  else .num (a / b)

/-- Multiply a pandas cell by a positive constant (e.g. `* 100`). -/
def mulF (v : FVal) (c : ℚ) : FVal :=
  match v with
  | .num q => .num (q * c)
  | .nan => .nan
  | .inf => .inf
  | .ninf => .ninf

/-- Divide a finite rational by a pandas cell (used for
`spend / conversions.replace(0, nan)`): anything over NaN is NaN. -/
def fdivF (a : ℚ) (b : FVal) : FVal :=
  match b with
  | .num q => fdiv a q
  | .nan => .nan
  | .inf => .num 0
  | .ninf => .num 0

/-- Models `Series.replace(0, float("nan"))` on a single cell. -/
def replaceZeroNan (q : ℚ) : FVal :=
  if q = 0 then .nan else .num q

/-- Round half to even to the nearest integer (NumPy / Python `round`). -/
def rhe (q : ℚ) : ℤ :=
  if Int.fract q < 1 / 2 then ⌊q⌋
  else if 1 / 2 < Int.fract q then ⌊q⌋ + 1
  else if ⌊q⌋ % 2 = 0 then ⌊q⌋ else ⌊q⌋ + 1

/-- Models `round(x, 1)` (NumPy half-to-even), idealised over `ℚ`. -/
def round1 (q : ℚ) : ℚ := (rhe (q * 10) : ℚ) / 10

/-- Models `round(x, 2)` (NumPy half-to-even), idealised over `ℚ`. -/
def round2 (q : ℚ) : ℚ := (rhe (q * 100) : ℚ) / 100

/-- Models `.round(1)` on a pandas cell: NaN and ±inf are fixed. -/
def roundF1 (v : FVal) : FVal :=
  match v with
  | .num q => .num (round1 q)
  | .nan => .nan
  | .inf => .inf
  | .ninf => .ninf

/-- Models `.round(2)` on a pandas cell: NaN and ±inf are fixed. -/
def roundF2 (v : FVal) : FVal :=
  match v with
  | .num q => .num (round2 q)
  | .nan => .nan
  | .inf => .inf
  | .ninf => .ninf

/-- The distinct platform names of the record set, ascending — the group
keys of `df.groupby("platform")` (pandas sorts keys by default). -/
def platforms (rs : List URec) : List String :=
  List.insertionSort (· ≤ ·) (rs.map (fun r => r.platform)).dedup

/-- Grouped sum of `spend` for one platform (app.py line 199). -/
def spendSum (rs : List URec) (p : String) : ℚ :=
  ((rs.filter (fun r => r.platform = p)).map (fun r => r.spend)).sum

/-- Grouped sum of `impressions` for one platform (app.py line 200). -/
def impSum (rs : List URec) (p : String) : ℕ :=
  ((rs.filter (fun r => r.platform = p)).map (fun r => r.impressions)).sum

/-- Grouped sum of `clicks` for one platform (app.py line 201). -/
def clickSum (rs : List URec) (p : String) : ℕ :=
  ((rs.filter (fun r => r.platform = p)).map (fun r => r.clicks)).sum

/-- Grouped sum of `conversions` for one platform (app.py line 202). -/
def convSum (rs : List URec) (p : String) : ℕ :=
  ((rs.filter (fun r => r.platform = p)).map (fun r => r.conversions)).sum

/-- Models `by_platform["spend"].sum()` — the denominator of `share_of_spend`
(app.py line 207): the sum of the per-platform spend sums. -/
def platformTotalSpend (rs : List URec) : ℚ :=
  ((platforms rs).map (spendSum rs)).sum

/-- One row of the `by_platform` frame after lines 196-207 of app.py:
summed counters plus the three derived ratio columns. -/
structure PlatformSummary where
  platform : String
  spend : ℚ
  impressions : ℕ
  clicks : ℕ
  conversions : ℕ
  ctr_pct : FVal
  cost_per_conv : FVal
  share_of_spend : FVal
  deriving DecidableEq

/-- The `by_platform` row for platform `p` (app.py lines 196-207):
`ctr_pct = (clicks / impressions * 100).round(2)` (no zero guard),
`cost_per_conv = (spend / conversions.replace(0, nan)).round(2)`,
`share_of_spend = (spend / by_platform.spend.sum() * 100).round(1)`. -/
def summaryFor (rs : List URec) (p : String) : PlatformSummary :=
  { platform := p
    spend := spendSum rs p
    impressions := impSum rs p
    clicks := clickSum rs p
    conversions := convSum rs p
    ctr_pct := roundF2 (mulF (fdiv (clickSum rs p) (impSum rs p)) 100)
    cost_per_conv := roundF2 (fdivF (spendSum rs p) (replaceZeroNan (convSum rs p)))
    share_of_spend := roundF1 (mulF (fdiv (spendSum rs p) (platformTotalSpend rs)) 100) }

/-- The Platform Aggregator output: one `PlatformSummary` per distinct
platform, ordered by platform name (pandas groupby default). -/
def by_platform (rs : List URec) : List PlatformSummary :=
  (platforms rs).map (summaryFor rs)

/-- Models `df["spend"].sum()` (app.py line 176). -/
def tot_spend (rs : List URec) : ℚ := (rs.map (fun r => r.spend)).sum

/-- Models `df["impressions"].sum()` (app.py line 177). -/
def tot_impressions (rs : List URec) : ℕ := (rs.map (fun r => r.impressions)).sum

/-- Models `df["clicks"].sum()` (app.py line 178). -/
def tot_clicks (rs : List URec) : ℕ := (rs.map (fun r => r.clicks)).sum

/-- Models `df["conversions"].sum()` (app.py line 179). -/
def tot_conversions (rs : List URec) : ℕ := (rs.map (fun r => r.conversions)).sum

/-- Models `overall_cpc = tot_spend / tot_clicks if tot_clicks else 0`
(app.py line 180): a plain number, `0` when clicks are zero. -/
def overall_cpc (rs : List URec) : ℚ :=
  if tot_clicks rs ≠ 0 then tot_spend rs / (tot_clicks rs : ℚ) else 0

/-- Models `overall_cpa = tot_spend / tot_conversions if tot_conversions else 0`
(app.py line 181): a plain number, `0` when conversions are zero. -/
def overall_cpa (rs : List URec) : ℚ :=
  if tot_conversions rs ≠ 0 then tot_spend rs / (tot_conversions rs : ℚ) else 0

/-- Models `overall_ctr = (tot_clicks / tot_impressions * 100) if tot_impressions else 0`
(app.py line 182). -/
def overall_ctr (rs : List URec) : ℚ :=
  if tot_impressions rs ≠ 0 then (tot_clicks rs : ℚ) / (tot_impressions rs : ℚ) * 100 else 0

/-- One row of the optional `unified_ads_daily_summary` table
(app.py lines 59-63): pre-aggregated per (date, platform). -/
structure DSRow where
  date : ℕ
  platform : String
  impressions : ℕ
  clicks : ℕ
  spend : ℚ
  conversions : ℕ
  ctr : ℚ
  cost_per_conversion : ℚ
  deriving DecidableEq

/-- One plotted time-series point: the fields the charts read
(`date`, `platform`, `spend`, `conversions`). -/
structure DailyRow where
  date : ℕ
  platform : String
  spend : ℚ
  conversions : ℕ
  deriving DecidableEq

/-- The (date, platform) grouping key of a unified record. -/
def recKey (r : URec) : ℕ × String := (r.date, r.platform)

/-- The (date, platform) key of a time-series row. -/
def drowKey (row : DailyRow) : ℕ × String := (row.date, row.platform)

/-- Lexicographic order on (date, platform) keys — pandas sorts groupby
output by its keys. -/
def keyLe (a b : ℕ × String) : Prop :=
  a.1 < b.1 ∨ (a.1 = b.1 ∧ a.2 ≤ b.2)

instance : DecidableRel keyLe := fun a b => by
  unfold keyLe
  infer_instance

instance : IsTotal (ℕ × String) keyLe where
  total a b := by
    rcases Nat.lt_trichotomy a.1 b.1 with h | h | h
    · exact Or.inl (Or.inl h)
    · rcases le_total a.2 b.2 with h2 | h2
      · exact Or.inl (Or.inr ⟨h, h2⟩)
      · exact Or.inr (Or.inr ⟨h.symm, h2⟩)
    · exact Or.inr (Or.inl h)

instance : IsTrans (ℕ × String) keyLe where
  trans a b c hab hbc := by
    rcases hab with h1 | ⟨e1, l1⟩
    · rcases hbc with h2 | ⟨e2, _⟩
      · exact Or.inl (h1.trans h2)
      · exact Or.inl (e2 ▸ h1)
    · rcases hbc with h2 | ⟨e2, l2⟩
      · exact Or.inl (e1 ▸ h2)
      · exact Or.inr ⟨e1.trans e2, l1.trans l2⟩

/-- The distinct (date, platform) keys of the record set, sorted — the
group keys of `df.groupby(["date", "platform"])` (app.py line 292). -/
def dailyKeys (rs : List URec) : List (ℕ × String) :=
  List.insertionSort keyLe (rs.map recKey).dedup

/-- Fallback time-series aggregation (app.py line 292):
`df.groupby(["date", "platform"]).agg({"spend": "sum", "conversions": "sum"}).reset_index()`
— one row per distinct (date, platform) key, summing spend and
conversions only. -/
def fallbackDaily (rs : List URec) : List DailyRow :=
  (dailyKeys rs).map (fun k =>
    { date := k.1
      platform := k.2
      spend := ((rs.filter (fun r => recKey r = k)).map (fun r => r.spend)).sum
      conversions := ((rs.filter (fun r => recKey r = k)).map (fun r => r.conversions)).sum })

/-- The daily-summary loader (app.py lines 52-66): the whole query is
wrapped in try/except and any raised error yields `None`; a successful
query yields the rows. -/
def load_daily_result (res : Except String (List DSRow)) : Option (List DSRow) :=
  match res with
  | .ok d => some d
  | .error _ => none

/-- Projection of a daily-summary row to the fields the charts plot. -/
def projDS (d : DSRow) : DailyRow :=
  { date := d.date, platform := d.platform, spend := d.spend, conversions := d.conversions }

/-- The time-series data actually charted (app.py lines 251 and 291-292):
`if daily is not None and not daily.empty:` plot `daily`, `else` plot the
fallback aggregation of the raw records. -/
def timeSeriesData (daily : Option (List DSRow)) (rs : List URec) : List DailyRow :=
  match daily with
  | some d => if d.isEmpty then fallbackDaily rs else d.map projDS
  | none => fallbackDaily rs

/-- Build a record whose identifier fields are irrelevant to aggregation. -/
def mkRec (d : ℕ) (p : String) (i c : ℕ) (s : ℚ) (v : ℕ) : URec :=
  { date := d, platform := p, campaign_id := "", campaign_name := "",
    ad_group_id := "", ad_group_name := "", impressions := i, clicks := c,
    spend := s, conversions := v }

/-- A platform whose grouped impressions are zero (clicks zero too). -/
def exZeroImp : List URec := [mkRec 1 "X" 0 0 5 0]

/-- Single platform, zero conversions and zero clicks overall. -/
def exZeroConv : List URec := [mkRec 1 "X" 10 0 5 0]

/-- The worked spec scenario: platform A (1000 imp, 50 clicks, 100 spend,
5 conv) and platform B (2000 imp, 100 clicks, 300 spend, 0 conv). -/
def exScenario : List URec :=
  [mkRec 1 "A" 1000 50 100 5, mkRec 1 "B" 2000 100 300 0]

/-- Two platforms with very different volumes: overall CTR differs from
the mean of the per-platform CTRs. -/
def exVolume : List URec :=
  [mkRec 1 "A" 100 50 10 1, mkRec 1 "B" 1000 10 10 1]

/-- Three rows over two dates and two platforms, dates out of order. -/
def exDaily : List URec :=
  [mkRec 2 "A" 10 1 5 1, mkRec 1 "A" 20 2 7 2, mkRec 1 "B" 30 3 9 3]

/-- Five platforms whose rounded spend shares each lose 0.04: the rounded
shares sum to 99.8, outside the claimed ±0.1 tolerance. -/
def exShares : List URec :=
  [mkRec 1 "A" 10 1 2004 1, mkRec 1 "B" 10 1 2004 1, mkRec 1 "C" 10 1 2004 1,
   mkRec 1 "D" 10 1 2004 1, mkRec 1 "E" 10 1 1984 1]

/-! ### Helper lemmas -/

/-- Single-character string comparisons, usable by `simp` after
`String.le_iff_toList_le` fires (the kernel cannot reduce `String.ltb`,
so these are proved through the lexicographic order on `List Char`). -/
theorem charle_AB : (['A'] : List Char) ≤ ['B'] := le_of_lt (by constructor; decide)

theorem charle_BC : (['B'] : List Char) ≤ ['C'] := le_of_lt (by constructor; decide)

theorem charle_CD : (['C'] : List Char) ≤ ['D'] := le_of_lt (by constructor; decide)

theorem charle_DE : (['D'] : List Char) ≤ ['E'] := le_of_lt (by constructor; decide)

theorem strle_AB : ("A" : String) ≤ "B" := by
  rw [String.le_iff_toList_le]
  exact charle_AB

/-- Sorting the deduplicated list changes neither membership … -/
theorem mem_sort_dedup {α : Type} [DecidableEq α] (r : α → α → Prop) [DecidableRel r]
    (l : List α) (x : α) : x ∈ List.insertionSort r l.dedup ↔ x ∈ l := by
  rw [(List.perm_insertionSort r l.dedup).mem_iff, List.mem_dedup]

/-- Sorting the deduplicated list also preserves duplicate-freeness. -/
theorem nodup_sort_dedup {α : Type} [DecidableEq α] (r : α → α → Prop) [DecidableRel r]
    (l : List α) : (List.insertionSort r l.dedup).Nodup :=
  (List.perm_insertionSort r l.dedup).nodup_iff.mpr (List.nodup_dedup l)

theorem sum_map_zero {κ M : Type} [AddCommMonoid M] (keys : List κ) :
    (keys.map (fun _ => (0 : M))).sum = 0 := by
  induction keys with
  | nil => rfl
  | cons k ks ih => simp [ih]

/-- Adding `c` into the summand at the single key `a` adds `c` to the
total, provided the key list has no duplicates. -/
theorem sum_map_ite_add {κ M : Type} [DecidableEq κ] [AddCommMonoid M] :
    ∀ (keys : List κ) (a : κ), a ∈ keys → keys.Nodup → ∀ (g : κ → M) (c : M),
      (keys.map (fun p => if a = p then c + g p else g p)).sum = c + (keys.map g).sum := by
  intro keys
  induction keys with
  | nil => intro a ha; exact absurd ha (List.not_mem_nil a)
  | cons k ks ih =>
    intro a ha hnd g c
    rcases List.mem_cons.mp ha with rfl | hmem
    · have hnotin : a ∉ ks := (List.nodup_cons.mp hnd).1
      have hcongr : ks.map (fun p => if a = p then c + g p else g p) = ks.map g := by
        apply List.map_congr_left
        intro b hb
        have : a ≠ b := fun h => hnotin (h ▸ hb)
        simp [this]
      simp [hcongr, add_assoc]
    · have hne : a ≠ k := fun h => (List.nodup_cons.mp hnd).1 (h ▸ hmem)
      have := ih a hmem (List.nodup_cons.mp hnd).2 g c
      simp [hne, this, add_left_comm]

/-- Grouped sums over a duplicate-free covering key list add up to the
plain sum: grouping neither loses nor double-counts a row. -/
theorem fiber_sum {α κ M : Type} [DecidableEq κ] [AddCommMonoid M]
    (key : α → κ) (f : α → M) :
    ∀ (rs : List α) (keys : List κ), keys.Nodup → (∀ r ∈ rs, key r ∈ keys) →
      (keys.map (fun p => ((rs.filter (fun r => key r = p)).map f).sum)).sum
        = (rs.map f).sum := by
  intro rs
  induction rs with
  | nil => intro keys _ _; simp [sum_map_zero]
  | cons r rs ih =>
    intro keys hnd hcov
    have hstep : keys.map (fun p => (((r :: rs).filter (fun x => key x = p)).map f).sum)
        = keys.map (fun p =>
            if key r = p then f r + ((rs.filter (fun x => key x = p)).map f).sum
            else ((rs.filter (fun x => key x = p)).map f).sum) := by
      apply List.map_congr_left
      intro p _
      by_cases h : key r = p
      · simp [List.filter_cons, h]
      · simp [List.filter_cons, h]
    rw [hstep, sum_map_ite_add keys (key r) (hcov r (List.mem_cons_self r rs)) hnd,
      ih keys hnd (fun x hx => hcov x (List.mem_cons_of_mem r hx))]
    simp

/-- Half-to-even rounding moves a rational by at most 1/2. -/
theorem abs_rhe_sub_le (q : ℚ) : |(rhe q : ℚ) - q| ≤ 1 / 2 := by
  have hfr : (⌊q⌋ : ℚ) = q - Int.fract q := by
    rw [Int.fract]; ring
  have h0 : 0 ≤ Int.fract q := Int.fract_nonneg q
  have h1 : Int.fract q < 1 := Int.fract_lt_one q
  unfold rhe
  split_ifs with c1 c2 c3
  · rw [hfr]
    rw [show q - Int.fract q - q = -Int.fract q by ring, abs_neg, abs_of_nonneg h0]
    exact c1.le
  · push_cast
    rw [hfr]
    rw [show q - Int.fract q + 1 - q = 1 - Int.fract q by ring,
      abs_of_nonneg (by linarith)]
    linarith
  · have heq : Int.fract q = 1 / 2 := le_antisymm (not_lt.mp c2) (not_lt.mp c1)
    rw [hfr, heq]
    rw [show q - 1 / 2 - q = -(1 / 2 : ℚ) by ring, abs_neg, abs_of_nonneg (by norm_num)]
  · have heq : Int.fract q = 1 / 2 := le_antisymm (not_lt.mp c2) (not_lt.mp c1)
    push_cast
    rw [hfr, heq]
    rw [show q - 1 / 2 + 1 - q = (1 / 2 : ℚ) by ring, abs_of_nonneg (by norm_num)]

/-- Rounding to one decimal moves a rational by at most 1/20. -/
theorem abs_round1_sub_le (q : ℚ) : |round1 q - q| ≤ 1 / 20 := by
  have h := abs_rhe_sub_le (q * 10)
  unfold round1
  rw [show (rhe (q * 10) : ℚ) / 10 - q = ((rhe (q * 10) : ℚ) - q * 10) / 10 by ring,
    abs_div, abs_of_pos (by norm_num : (0:ℚ) < 10)]
  linarith

/-- Each `round1` value lies on the 0.1 grid. -/
theorem round1_int_div (q : ℚ) : ∃ n : ℤ, round1 q = (n : ℚ) / 10 :=
  ⟨rhe (q * 10), rfl⟩

/-- Each `round2` value lies on the 0.01 grid. -/
theorem round2_int_div (q : ℚ) : ∃ n : ℤ, round2 q = (n : ℚ) / 100 :=
  ⟨rhe (q * 100), rfl⟩

/-- Rounding every summand to one decimal moves the sum by at most
`length / 20`. -/
theorem abs_sum_round1_sub_le :
    ∀ l : List ℚ, |(l.map round1).sum - l.sum| ≤ (l.length : ℚ) / 20 := by
  intro l
  induction l with
  | nil => simp
  | cons x xs ih =>
    have hx := abs_round1_sub_le x
    have htri : |round1 x + (xs.map round1).sum - (x + xs.sum)|
        ≤ |round1 x - x| + |(xs.map round1).sum - xs.sum| := by
      rw [show round1 x + (xs.map round1).sum - (x + xs.sum)
          = (round1 x - x) + ((xs.map round1).sum - xs.sum) by ring]
      exact abs_add _ _
    simp only [List.map_cons, List.sum_cons, List.length_cons]
    push_cast
    calc |round1 x + (xs.map round1).sum - (x + xs.sum)|
        ≤ |round1 x - x| + |(xs.map round1).sum - xs.sum| := htri
      _ ≤ 1 / 20 + (xs.length : ℚ) / 20 := add_le_add hx ih
      _ = ((xs.length : ℚ) + 1) / 20 := by ring

/-- Dividing each summand by `T` and scaling by 100 commutes with the sum. -/
theorem sum_map_div_mul (T : ℚ) :
    ∀ l : List ℚ, (l.map (fun x => x / T * 100)).sum = l.sum / T * 100 := by
  intro l
  induction l with
  | nil => simp
  | cons x xs ih => simp [ih]; ring

/-- Membership in the Platform Aggregator group keys. -/
theorem mem_platforms {rs : List URec} {p : String} :
    p ∈ platforms rs ↔ ∃ r ∈ rs, r.platform = p := by
  unfold platforms
  rw [mem_sort_dedup, List.mem_map]

/-- The Platform Aggregator group keys are duplicate-free. -/
theorem platforms_nodup (rs : List URec) : (platforms rs).Nodup :=
  nodup_sort_dedup _ _

/-- Every record is covered by some platform group key. -/
theorem platform_mem_platforms {rs : List URec} {r : URec} (h : r ∈ rs) :
    r.platform ∈ platforms rs :=
  mem_platforms.mpr ⟨r, h, rfl⟩

/-- The per-platform spend sums add up to the plain total spend. -/
theorem platformTotalSpend_eq (rs : List URec) : platformTotalSpend rs = tot_spend rs := by
  unfold platformTotalSpend tot_spend
  have : (platforms rs).map (spendSum rs)
      = (platforms rs).map (fun p => ((rs.filter (fun r => r.platform = p)).map
          (fun r => r.spend)).sum) := rfl
  rw [this]
  exact fiber_sum (fun r => r.platform) (fun r => r.spend) rs (platforms rs)
    (platforms_nodup rs) (fun r hr => platform_mem_platforms hr)

/-- Membership in the fallback time-series group keys. -/
theorem mem_dailyKeys {rs : List URec} {k : ℕ × String} :
    k ∈ dailyKeys rs ↔ ∃ r ∈ rs, recKey r = k := by
  unfold dailyKeys
  rw [mem_sort_dedup, List.mem_map]

/-- The fallback time-series group keys are duplicate-free. -/
theorem dailyKeys_nodup (rs : List URec) : (dailyKeys rs).Nodup :=
  nodup_sort_dedup _ _

/-- The fallback time-series group keys are sorted lexicographically. -/
theorem dailyKeys_sorted (rs : List URec) : (dailyKeys rs).Pairwise keyLe :=
  List.sorted_insertionSort keyLe (rs.map recKey).dedup

/-- The keys of the fallback rows are exactly the sorted distinct keys. -/
theorem fallbackDaily_keys (rs : List URec) :
    (fallbackDaily rs).map drowKey = dailyKeys rs := by
  unfold fallbackDaily
  rw [List.map_map]
  have : ∀ k ∈ dailyKeys rs, (drowKey ∘ fun k : ℕ × String =>
      ({ date := k.1, platform := k.2,
         spend := ((rs.filter (fun r => recKey r = k)).map (fun r => r.spend)).sum
         conversions := ((rs.filter (fun r => recKey r = k)).map (fun r => r.conversions)).sum }
        : DailyRow)) k = id k := by
    intro k _
    simp [drowKey]
  rw [List.map_congr_left this, List.map_id]

/-- A `.round(2)` cell that is a number lies on the 0.01 grid. -/
theorem roundF2_num_grid (v : FVal) (q : ℚ) (h : roundF2 v = FVal.num q) :
    ∃ n : ℤ, q = (n : ℚ) / 100 := by
  cases v with
  | num x =>
    simp only [roundF2] at h
    have h2 : round2 x = q := (FVal.num.injEq _ _).mp h
    exact ⟨rhe (x * 100), by rw [← h2]; rfl⟩
  | nan => simp [roundF2] at h
  | inf => simp [roundF2] at h
  | ninf => simp [roundF2] at h

/-- A `.round(1)` cell that is a number lies on the 0.1 grid. -/
theorem roundF1_num_grid (v : FVal) (q : ℚ) (h : roundF1 v = FVal.num q) :
    ∃ n : ℤ, q = (n : ℚ) / 10 := by
  cases v with
  | num x =>
    simp only [roundF1] at h
    have h2 : round1 x = q := (FVal.num.injEq _ _).mp h
    exact ⟨rhe (x * 10), by rw [← h2]; rfl⟩
  | nan => simp [roundF1] at h
  | inf => simp [roundF1] at h
  | ninf => simp [roundF1] at h

/-- If the record set is non-empty, so is the fallback time series. -/
theorem fallbackDaily_ne_nil {rs : List URec} (h : rs ≠ []) : fallbackDaily rs ≠ [] := by
  intro hnil
  have h1 : (fallbackDaily rs).map drowKey = [] := by rw [hnil]; rfl
  rw [fallbackDaily_keys] at h1
  have h2 := List.perm_insertionSort keyLe (rs.map recKey).dedup
  unfold dailyKeys at h1
  rw [h1] at h2
  have h3 : (rs.map recKey).dedup = [] := h2.symm.eq_nil
  rw [List.dedup_eq_nil] at h3
  exact h (by simpa using congrArg List.length h3)

/-! ### Claim theorems -/

/-- C4: for a non-empty record set, the per-platform spend sums produced
by the Platform Aggregator add up exactly to the overall spend total (the
direct sum over all input rows): the grouping neither loses nor
double-counts a row. -/
theorem c4_spend_partition (rs : List URec) (h : rs ≠ []) :
    ((by_platform rs).map (fun s => s.spend)).sum = tot_spend rs := by
  have hcols : (by_platform rs).map (fun s => s.spend) = (platforms rs).map (spendSum rs) := by
    unfold by_platform
    rw [List.map_map]
    rfl
  rw [hcols]
  exact platformTotalSpend_eq rs

/-- C4 witness: the partition identity at the two-platform scenario. -/
theorem c4_witness :
    exScenario ≠ []
      ∧ ((by_platform exScenario).map (fun s => s.spend)).sum = tot_spend exScenario :=
  ⟨by simp [exScenario], c4_spend_partition exScenario (by simp [exScenario])⟩

/-- C7: when loading the daily-summary dataset raises (query error,
missing table), the loader returns `None` (app.py lines 56-66) and the
time-series section charts the fallback aggregation of the raw records
(app.py lines 251, 291-292): the error is absorbed, never surfaced, and
the time series is still produced from the Unified Record Set. -/
theorem c7_silent_fallback_on_error (msg : String) (rs : List URec) :
    load_daily_result (Except.error msg) = none
      ∧ timeSeriesData (load_daily_result (Except.error msg)) rs = fallbackDaily rs :=
  ⟨rfl, rfl⟩

/-- C10: a daily dataset that is absent (`None`) and one that loaded but
is empty take the same branch (app.py line 251 tests
`daily is not None and not daily.empty`): both chart the fallback
aggregation, and with raw data present the chart is never empty. -/
theorem c10_empty_daily_fallback (rs : List URec) :
    timeSeriesData none rs = fallbackDaily rs
      ∧ timeSeriesData (some []) rs = fallbackDaily rs
      ∧ (rs ≠ [] → timeSeriesData (some []) rs ≠ []) :=
  ⟨rfl, rfl, fun h => fallbackDaily_ne_nil h⟩

/-- C10 witness: the empty-daily fallback at a concrete record set. -/
theorem c10_witness :
    exDaily ≠ [] ∧ timeSeriesData (some []) exDaily ≠ [] :=
  ⟨by simp [exDaily], (c10_empty_daily_fallback exDaily).2.2 (by simp [exDaily])⟩

/-- C3 (amended): the Overall Summary does NOT use the absent-value
policy of the per-platform KPI columns: `overall_cpa` and `overall_cpc`
(app.py lines 180-181) fall back to the number 0 when their denominator
total is zero (rendered as a dollar amount), and only divide otherwise. -/
theorem c3_overall_zero_fallback (rs : List URec) :
    (tot_conversions rs = 0 → overall_cpa rs = 0)
      ∧ (tot_conversions rs ≠ 0 → overall_cpa rs = tot_spend rs / (tot_conversions rs : ℚ))
      ∧ (tot_clicks rs = 0 → overall_cpc rs = 0)
      ∧ (tot_clicks rs ≠ 0 → overall_cpc rs = tot_spend rs / (tot_clicks rs : ℚ)) := by
  refine ⟨fun h => ?_, fun h => ?_, fun h => ?_, fun h => ?_⟩ <;>
    simp [overall_cpa, overall_cpc, h]

/-- C1: the claim says a platform group with zero summed impressions gets
`ctr_pct = 0`.  The code (app.py line 205) divides without a zero guard,
so pandas produces NaN (displayed as a literal "nan%" by line 242); the
overall CTR at line 182 does carry the guard, so the per-platform column
is the slip.  At the failing input the column is NaN, not the numeric 0
the claim requires. -/
theorem c1_zero_impressions_ctr_is_nan :
    ((by_platform exZeroImp).map (fun s => s.ctr_pct)) = [FVal.nan]
      ∧ FVal.nan ≠ FVal.num 0 :=
  ⟨by simp [by_platform, platforms, exZeroImp, mkRec, List.insertionSort, List.orderedInsert,
      summaryFor, clickSum, impSum, fdiv, mulF, roundF2],
   by simp⟩

/-- C2: per platform group, zero summed conversions yield the NaN cell
(app.py line 206 replaces a zero denominator by NaN before dividing),
which `pd.notna` rejects so line 243 renders a dash and never a dollar
amount; positive conversions yield the rounded quotient spend/conversions
as a plain number. -/
theorem c2_cost_per_conv_absent_marker (rs : List URec) (s : PlatformSummary)
    (hs : s ∈ by_platform rs) :
    (s.conversions = 0 →
        s.cost_per_conv = FVal.nan ∧ notna s.cost_per_conv = false
          ∧ ∀ q : ℚ, s.cost_per_conv ≠ FVal.num q)
      ∧ (s.conversions ≠ 0 →
        s.cost_per_conv = FVal.num (round2 (s.spend / (s.conversions : ℚ)))) := by
  obtain ⟨p, hp, rfl⟩ := List.mem_map.mp hs
  constructor
  · intro h0
    have h0q : ((convSum rs p : ℕ) : ℚ) = 0 := by
      norm_num [show convSum rs p = 0 from h0]
    have heq : (summaryFor rs p).cost_per_conv = FVal.nan := by
      simp [summaryFor, replaceZeroNan, h0q, fdivF, roundF2]
    exact ⟨heq, by rw [heq]; rfl, fun q hq => by rw [heq] at hq; exact FVal.noConfusion hq⟩
  · intro hne
    have hq : ((convSum rs p : ℕ) : ℚ) ≠ 0 := by
      simpa using (show convSum rs p ≠ 0 from hne)
    show (summaryFor rs p).cost_per_conv
        = FVal.num (round2 (spendSum rs p / ((convSum rs p : ℕ) : ℚ)))
    simp [summaryFor, replaceZeroNan, hq, fdivF, fdiv, roundF2]

/-- C2 witness: platform B of the worked scenario (zero conversions). -/
theorem c2_witness :
    (summaryFor exScenario "B").conversions = 0
      ∧ (summaryFor exScenario "B").cost_per_conv = FVal.nan :=
  ⟨by simp [summaryFor, convSum, exScenario, mkRec],
   ((c2_cost_per_conv_absent_marker exScenario (summaryFor exScenario "B")
      (by simp [by_platform, platforms, exScenario, mkRec, List.insertionSort,
        List.orderedInsert, charle_AB])).1
      (by simp [summaryFor, convSum, exScenario, mkRec])).1⟩

/-- C3 counterexample: with a single row carrying zero conversions and
zero clicks, the grand totals have zero conversions yet the Overall
Summary computes `overall_cpa = 0` (a number, rendered "$0.00" by line
190) — while the KPI column of the Platform Aggregator at the same data
is the NaN absent marker.  The claimed "same zero-guard semantics" is
false: the overall summary never produces an absent value. -/
theorem c3_counterexample :
    tot_conversions exZeroConv = 0 ∧ tot_clicks exZeroConv = 0
      ∧ overall_cpa exZeroConv = 0 ∧ overall_cpc exZeroConv = 0
      ∧ ((by_platform exZeroConv).map (fun s => s.cost_per_conv)) = [FVal.nan]
      ∧ FVal.num (0 : ℚ) ≠ FVal.nan :=
  ⟨by simp [tot_conversions, exZeroConv, mkRec],
   by simp [tot_clicks, exZeroConv, mkRec],
   by simp [overall_cpa, tot_conversions, exZeroConv, mkRec],
   by simp [overall_cpc, tot_clicks, exZeroConv, mkRec],
   by simp [by_platform, platforms, exZeroConv, mkRec, List.insertionSort, List.orderedInsert,
      summaryFor, convSum, spendSum, replaceZeroNan, fdivF, roundF2],
   by simp⟩

/-- C3 witness: the zero fallback of the Overall Summary at the
counterexample record set. -/
theorem c3_witness :
    tot_conversions exZeroConv = 0 ∧ overall_cpa exZeroConv = 0 :=
  ⟨by simp [tot_conversions, exZeroConv, mkRec],
   (c3_overall_zero_fallback exZeroConv).1 (by simp [tot_conversions, exZeroConv, mkRec])⟩

/-- C9: every derived ratio the Platform Aggregator hands to the
presentation layer is already rounded at the library's stated precision:
a numeric `ctr_pct` lies on the 0.01 grid, a numeric `cost_per_conv` on
the 0.01 grid, and a numeric `share_of_spend` on the 0.1 grid (app.py
lines 205-207 apply `.round(2)`, `.round(2)`, `.round(1)` before any
display code runs). -/
theorem c9_rounding_grid (rs : List URec) (s : PlatformSummary)
    (hs : s ∈ by_platform rs) :
    (∀ q : ℚ, s.ctr_pct = FVal.num q → ∃ n : ℤ, q = (n : ℚ) / 100)
      ∧ (∀ q : ℚ, s.cost_per_conv = FVal.num q → ∃ n : ℤ, q = (n : ℚ) / 100)
      ∧ (∀ q : ℚ, s.share_of_spend = FVal.num q → ∃ n : ℤ, q = (n : ℚ) / 10) := by
  obtain ⟨p, hp, rfl⟩ := List.mem_map.mp hs
  exact ⟨fun q hq => roundF2_num_grid _ q hq,
    fun q hq => roundF2_num_grid _ q hq,
    fun q hq => roundF1_num_grid _ q hq⟩

/-- C9 witness: platform A of the worked scenario has `ctr_pct = 5.00`,
which the theorem places on the 0.01 grid. -/
theorem c9_witness :
    (summaryFor exScenario "A").ctr_pct = FVal.num 5
      ∧ ∃ n : ℤ, (5 : ℚ) = (n : ℚ) / 100 := by
  have hmem : summaryFor exScenario "A" ∈ by_platform exScenario := by
    simp [by_platform, platforms, exScenario, mkRec, List.insertionSort,
      List.orderedInsert, charle_AB]
  have hctr : (summaryFor exScenario "A").ctr_pct = FVal.num 5 := by
    simp [summaryFor, clickSum, impSum, exScenario, mkRec, fdiv, mulF, roundF2]
    norm_num [round2, rhe, Int.fract]
  exact ⟨hctr, (c9_rounding_grid exScenario (summaryFor exScenario "A") hmem).1 5 hctr⟩

/-- C5: the overall CTR is computed sum-then-divide (app.py line 182):
whenever total impressions are positive it equals total clicks over total
impressions times 100; and at a concrete two-platform input it differs
from the average of the per-platform CTR columns, so it is not an
average-of-ratios. -/
theorem c5_overall_ctr_sum_then_divide :
    (∀ rs : List URec, tot_impressions rs ≠ 0 →
        overall_ctr rs = (tot_clicks rs : ℚ) / (tot_impressions rs : ℚ) * 100)
      ∧ ((by_platform exVolume).map (fun s => s.ctr_pct) = [FVal.num 50, FVal.num 1]
        ∧ overall_ctr exVolume = 60 / 11
        ∧ (60 / 11 : ℚ) ≠ (50 + 1) / 2) := by
  refine ⟨fun rs h => by simp [overall_ctr, h], ?_, ?_, by norm_num⟩
  · simp [by_platform, platforms, exVolume, mkRec, List.insertionSort, List.orderedInsert,
      charle_AB, summaryFor, clickSum, impSum, fdiv, mulF, roundF2]
    norm_num [round2, rhe, Int.fract]
  · simp [overall_ctr, tot_clicks, tot_impressions, exVolume, mkRec]
    norm_num

/-- C5 witness: the sum-then-divide formula at the two-platform input. -/
theorem c5_witness :
    tot_impressions exVolume ≠ 0
      ∧ overall_ctr exVolume
          = (tot_clicks exVolume : ℚ) / (tot_impressions exVolume : ℚ) * 100 :=
  ⟨by simp [tot_impressions, exVolume, mkRec],
   c5_overall_ctr_sum_then_divide.1 exVolume (by simp [tot_impressions, exVolume, mkRec])⟩

/-- C6: in fallback mode the time series has exactly one row per distinct
(date, platform) key of the raw record set (keys duplicate-free, and a
key appears iff some input row carries it); each row's spend and
conversions are the sums over the matching input rows; and the rows are
sorted so that within one platform dates ascend (pandas sorts groupby
output lexicographically by its keys). -/
theorem c6_fallback_grouping (rs : List URec) :
    ((fallbackDaily rs).map drowKey).Nodup
      ∧ (∀ k : ℕ × String, k ∈ (fallbackDaily rs).map drowKey ↔ ∃ r ∈ rs, recKey r = k)
      ∧ (∀ row ∈ fallbackDaily rs,
          row.spend = ((rs.filter (fun r => recKey r = drowKey row)).map (fun r => r.spend)).sum
            ∧ row.conversions
              = ((rs.filter (fun r => recKey r = drowKey row)).map (fun r => r.conversions)).sum)
      ∧ (fallbackDaily rs).Pairwise (fun a b => a.platform = b.platform → a.date ≤ b.date) := by
  refine ⟨?_, ?_, ?_, ?_⟩
  · rw [fallbackDaily_keys]
    exact dailyKeys_nodup rs
  · intro k
    rw [fallbackDaily_keys]
    exact mem_dailyKeys
  · intro row hrow
    obtain ⟨k, hk, rfl⟩ := List.mem_map.mp hrow
    exact ⟨rfl, rfl⟩
  · have hp := dailyKeys_sorted rs
    unfold fallbackDaily
    rw [List.pairwise_map]
    exact hp.imp (fun hab => by
      intro _hpl
      rcases hab with h1 | ⟨h1, _⟩
      · exact le_of_lt h1
      · exact le_of_eq h1)

/-- C6 witness: at the three-row input both keys of platform A appear in
the fallback output. -/
theorem c6_witness :
    ((1, "A") ∈ (fallbackDaily exDaily).map drowKey)
      ∧ ((2, "A") ∈ (fallbackDaily exDaily).map drowKey) :=
  ⟨((c6_fallback_grouping exDaily).2.1 (1, "A")).mpr
      ⟨mkRec 1 "A" 20 2 7 2, by simp [exDaily], rfl⟩,
   ((c6_fallback_grouping exDaily).2.1 (2, "A")).mpr
      ⟨mkRec 2 "A" 10 1 5 1, by simp [exDaily], rfl⟩⟩

/-- C8 counterexample to the claimed ±0.1 tolerance: five platforms with
spends 2004, 2004, 2004, 2004, 1984 (total 10000) have raw shares 20.04
(four times) and 19.84; each rounds down to the 0.1 grid, so the rounded
shares sum to 99.8, which misses 100 by 0.2 — strictly outside ±0.1. -/
theorem c8_counterexample :
    0 < tot_spend exShares
      ∧ ((by_platform exShares).map (fun s => s.share_of_spend))
          = [FVal.num 20, FVal.num 20, FVal.num 20, FVal.num 20, FVal.num (99 / 5)]
      ∧ ¬ (|(20 + 20 + 20 + 20 + 99 / 5 : ℚ) - 100| ≤ 1 / 10) := by
  refine ⟨by norm_num [tot_spend, exShares, mkRec], ?_, by norm_num [abs]⟩
  simp [by_platform, platforms, exShares, mkRec, List.insertionSort, List.orderedInsert,
    charle_AB, charle_BC, charle_CD, charle_DE, summaryFor, spendSum, platformTotalSpend,
    fdiv, mulF, roundF1]
  norm_num [round1, rhe, Int.fract]

/-- C8 (amended): the rounded shares sum to 100 only within 0.05 per
platform: each platform's numeric `share_of_spend` is the 0.1-rounding
of its raw share, the raw shares sum to exactly 100, and hence the
rounded shares sum to 100 within ±(k/20) where k is the number of
platform groups.  (±0.1 is guaranteed only for k ≤ 2; the counterexample
shows k = 5 can reach 0.2.) -/
theorem c8_share_sum_bound (rs : List URec) (h : 0 < tot_spend rs) :
    (∀ s ∈ by_platform rs,
        s.share_of_spend = FVal.num (round1 (s.spend / platformTotalSpend rs * 100)))
      ∧ |(((platforms rs).map
            (fun p => round1 (spendSum rs p / platformTotalSpend rs * 100))).sum) - 100|
          ≤ ((platforms rs).length : ℚ) / 20 := by
  have hT0 : platformTotalSpend rs ≠ 0 := by
    rw [platformTotalSpend_eq]
    exact ne_of_gt h
  constructor
  · intro s hs
    obtain ⟨p, hp, rfl⟩ := List.mem_map.mp hs
    show roundF1 (mulF (fdiv (spendSum rs p) (platformTotalSpend rs)) 100) = _
    simp only [fdiv, hT0, if_false, mulF, roundF1]
    rfl
  · have hmm : (platforms rs).map (fun p => round1 (spendSum rs p / platformTotalSpend rs * 100))
        = ((platforms rs).map (fun p => spendSum rs p / platformTotalSpend rs * 100)).map round1 := by
      rw [List.map_map]
      rfl
    have hraw : (platforms rs).map (fun p => spendSum rs p / platformTotalSpend rs * 100)
        = ((platforms rs).map (spendSum rs)).map
            (fun x => x / platformTotalSpend rs * 100) := by
      rw [List.map_map]
      rfl
    have hsum : ((platforms rs).map (fun p => spendSum rs p / platformTotalSpend rs * 100)).sum
        = 100 := by
      rw [hraw, sum_map_div_mul]
      rw [show ((platforms rs).map (spendSum rs)).sum = platformTotalSpend rs from rfl]
      field_simp
    have hb := abs_sum_round1_sub_le
      ((platforms rs).map (fun p => spendSum rs p / platformTotalSpend rs * 100))
    rw [hsum] at hb
    rw [hmm]
    simpa using hb

/-- C8 witness: the per-platform-count bound at the five-platform input
(there it allows 0.25, and the actual deviation is 0.2). -/
theorem c8_witness :
    0 < tot_spend exShares
      ∧ |(((platforms exShares).map
            (fun p => round1 (spendSum exShares p / platformTotalSpend exShares * 100))).sum) - 100|
          ≤ ((platforms exShares).length : ℚ) / 20 :=
  ⟨by norm_num [tot_spend, exShares, mkRec],
   (c8_share_sum_bound exShares (by norm_num [tot_spend, exShares, mkRec])).2⟩

end AdsDashboard
